import Mathlib

/-!
Verification development for the SBOM support-level analyzer
(`sbom_support_analyzer.py`).  The Python source is shallowly embedded:
pure string and date manipulation becomes executable Lean functions over
`List Char` and a `DateTime` record, network calls become oracle
parameters (already-decoded responses, `Option`-valued on failure), and
every fallible step returns an `Option`.  Theorems at the end of the file
settle the specification claims against these definitions.
-/

namespace Sbom

/-! ### String helpers

Python `str` operations are modelled on `List Char`.  Python's `lower()`
agrees with `Char.toLower` on the ASCII data handled by the analyzer.
-/

/-- Python `s.split(c)` for a single-character separator: splits at every
occurrence, keeping empty fields. -/
def splitOnChar (c : Char) : List Char → List (List Char)
  | [] => [[]]
  | a :: as =>
    match splitOnChar c as with
    | [] => [[]]
    | h :: t => if a = c then [] :: h :: t else (a :: h) :: t

/-- Python `s.rsplit(c, 1)` when `c` occurs in `s`: cut at the last
occurrence of `c`; `none` when `c` does not occur. -/
def rsplitLast (c : Char) : List Char → Option (List Char × List Char)
  | [] => none
  | a :: as =>
    match rsplitLast c as with
    | some (l, r) => some (a :: l, r)
    | none => if a = c then some ([], as) else none

/-- Helper for Python `s.split()` (no separator): accumulate the current
word in reverse while scanning. -/
def wordsByAux (p : Char → Bool) : List Char → List Char → List (List Char)
  | [], acc => if acc.isEmpty then [] else [acc.reverse]
  | c :: cs, acc =>
    if p c then
      if acc.isEmpty then wordsByAux p cs []
      else acc.reverse :: wordsByAux p cs []
    else wordsByAux p cs (c :: acc)

/-- Python `s.split()`: split on whitespace runs, dropping empty fields. -/
def pySplitWs (s : String) : List String :=
  (wordsByAux (fun c => c.isWhitespace) s.data []).map (fun l => ⟨l⟩)

/-- Python `s.startswith(p)`. -/
def strStartsWith (s p : String) : Bool := p.data.isPrefixOf s.data

/-- Tests whether `sub` occurs as a contiguous run inside `l`. -/
def listInfix (sub : List Char) : List Char → Bool
  | [] => sub.isEmpty
  | a :: as => sub.isPrefixOf (a :: as) || listInfix sub as

/-- Python `sub in s` (substring containment). -/
def strContains (s sub : String) : Bool := listInfix sub.data s.data

/-- Python `c in s` for a single character. -/
def charIn (c : Char) (s : String) : Bool := s.data.contains c

/-- Python `s.lower()` (ASCII data). -/
def strLower (s : String) : String := ⟨s.data.map Char.toLower⟩

/-- Python `s.replace(a, b)` for single characters `a`, `b`. -/
def strReplaceChar (s : String) (a b : Char) : String :=
  ⟨s.data.map (fun c => if c = a then b else c)⟩

/-- Python `s.count(c)` for a single character. -/
def countChar (s : String) (c : Char) : Nat := s.data.count c

/-- Python `s.split(c)[0]`: the prefix before the first occurrence of `c`. -/
def takeBeforeChar (c : Char) (s : String) : String :=
  ⟨(splitOnChar c s.data).headD []⟩

/-- Python `s.lstrip("v")` on a lowercased string: drop every leading `v`. -/
def lstripV (s : String) : String := ⟨s.data.dropWhile (fun c => c = 'v')⟩

/-- Python truthiness of an optional string: `None` and `""` are falsy. -/
def pyTruthy (o : Option String) : Bool := !(o.getD "").data.isEmpty

/-! ### Dates and times

Python `datetime` values (all normalized to UTC by the source) are
modelled as a civil date plus time of day.  Comparison and subtraction go
through the count of seconds since the proleptic-Gregorian epoch, exactly
as `datetime` arithmetic does. -/

structure DateTime where
  year : Nat
  month : Nat
  day : Nat
  hour : Nat := 0
  minute : Nat := 0
  second : Nat := 0
  deriving DecidableEq, Repr

/-- Days from 1970-01-01 for a proleptic-Gregorian civil date
(Hinnant's algorithm, floor division throughout). -/
def daysFromCivil (y m d : Int) : Int :=
  let y' : Int := if m ≤ 2 then y - 1 else y
  let era : Int := Int.fdiv y' 400
  let yoe : Int := y' - era * 400
  let mp : Int := Int.emod (m + 9) 12
  let doy : Int := Int.fdiv (153 * mp + 2) 5 + d - 1
  let doe : Int := yoe * 365 + Int.fdiv yoe 4 - Int.fdiv yoe 100 + doy
  era * 146097 + doe - 719468

/-- Seconds since the epoch; the common scale for `datetime` comparison. -/
def dtSecs (t : DateTime) : Int :=
  daysFromCivil t.year t.month t.day * 86400
    + (t.hour : Int) * 3600 + (t.minute : Int) * 60 + (t.second : Int)

/-- Python `(a - b).days`: the timedelta day count, floored. -/
def daysBetween (a b : DateTime) : Int := Int.fdiv (dtSecs a - dtSecs b) 86400

/-- Zero-padded decimal rendering of width `w`. -/
def padNat (w n : Nat) : String :=
  let s := toString n
  ⟨List.replicate (w - s.length) '0'⟩ ++ s

/-- Python `dt.strftime("%Y-%m-%d")`. -/
def fmtDate (t : DateTime) : String :=
  padNat 4 t.year ++ "-" ++ padNat 2 t.month ++ "-" ++ padNat 2 t.day

/-! ### Date parsing -/

def natOfDigits (l : List Char) : Nat :=
  l.foldl (fun a c => a * 10 + (c.toNat - 48)) 0

def allDigits (l : List Char) : Bool := l.all Char.isDigit

def isLeapYear (y : Nat) : Bool :=
  (y % 4 == 0 && y % 100 != 0) || y % 400 == 0

def daysInMonth (y m : Nat) : Nat :=
  if m = 2 then (if isLeapYear y then 29 else 28)
  else if m = 4 ∨ m = 6 ∨ m = 9 ∨ m = 11 then 30 else 31

/-- Python `datetime.strptime(s, "%Y-%m-%d")`, validating the calendar;
`none` models the swallowed `ValueError`. -/
def parseDateYMD (s : String) : Option DateTime :=
  match splitOnChar '-' s.data with
  | [ys, ms, ds] =>
    if allDigits ys ∧ allDigits ms ∧ allDigits ds
        ∧ ys ≠ [] ∧ ms ≠ [] ∧ ds ≠ [] then
      let y := natOfDigits ys
      let m := natOfDigits ms
      let d := natOfDigits ds
      if 1 ≤ m ∧ m ≤ 12 ∧ 1 ≤ d ∧ d ≤ daysInMonth y m then
        some { year := y, month := m, day := d }
      else none
    else none
  | _ => none

/-- Parses `HH:MM:SS` (strict, as required by `strptime("%H:%M:%S")`). -/
def parseTimeHMS (l : List Char) : Option (Nat × Nat × Nat) :=
  match splitOnChar ':' l with
  | [hs, ms, ss] =>
    if allDigits hs ∧ allDigits ms ∧ allDigits ss
        ∧ hs ≠ [] ∧ ms ≠ [] ∧ ss ≠ [] then
      let h := natOfDigits hs
      let m := natOfDigits ms
      let s := natOfDigits ss
      if h ≤ 23 ∧ m ≤ 59 ∧ s ≤ 59 then some (h, m, s) else none
    else none
  | _ => none

/-- Parses `HH:MM` or `HH:MM:SS`, as accepted by `datetime.fromisoformat`. -/
def parseTimeIso (l : List Char) : Option (Nat × Nat × Nat) :=
  match splitOnChar ':' l with
  | [hs, ms] =>
    if allDigits hs ∧ allDigits ms ∧ hs ≠ [] ∧ ms ≠ [] then
      let h := natOfDigits hs
      let m := natOfDigits ms
      if h ≤ 23 ∧ m ≤ 59 then some (h, m, 0) else none
    else none
  | _ => parseTimeHMS l

/-- Python `datetime.strptime(s, "%Y-%m-%dT%H:%M:%SZ")` (GitHub
timestamps); `none` models the swallowed `ValueError`. -/
def parseGithubTimestamp (s : String) : Option DateTime :=
  match splitOnChar 'T' s.data with
  | [dpart, tpart] =>
    match tpart.getLast? with
    | some 'Z' =>
      match parseDateYMD ⟨dpart⟩, parseTimeHMS tpart.dropLast with
      | some d, some (h, mi, se) =>
        some { d with hour := h, minute := mi, second := se }
      | _, _ => none
    | _ => none
  | _ => none

/-- Python `datetime.fromisoformat` as exercised by the NuGet client:
date, optional `T`-separated time, optional `+HH:MM` offset.  The source
immediately overwrites the timezone with UTC, so the offset text is
discarded here. -/
def fromIso (l : List Char) : Option DateTime :=
  let core := (splitOnChar '+' l).headD []
  match splitOnChar 'T' core with
  | [dpart] => parseDateYMD ⟨dpart⟩
  | [dpart, tpart] =>
    match parseDateYMD ⟨dpart⟩, parseTimeIso tpart with
    | some d, some (h, mi, se) =>
      some { d with hour := h, minute := mi, second := se }
    | _, _ => none
  | _ => none

/-- Python `s.replace("Z", "+00:00")`. -/
def expandZ : List Char → List Char
  | [] => []
  | c :: cs =>
    if c = 'Z' then '+' :: '0' :: '0' :: ':' :: '0' :: '0' :: expandZ cs
    else c :: expandZ cs

/-- The NuGet published-date parsing block of `_analyze_nuget_package`
(lines 848-868): normalize `Z`, strip milliseconds around an offset, and
fall back through the three `fromisoformat` branches. -/
def parseNugetDate (p : String) : Option DateTime :=
  let dateStr := expandZ p.data
  if dateStr.contains '.' ∧ dateStr.contains '+' then
    match rsplitLast '+' dateStr with
    | some (dtPart, tzPart) =>
      let dtPart := if dtPart.contains '.' then (splitOnChar '.' dtPart).headD [] else dtPart
      fromIso (dtPart ++ '+' :: tzPart)
    | none => none
  else if dateStr.contains '.' then
    fromIso ((splitOnChar '.' dateStr).headD [])
  else fromIso dateStr

/-! ### Classification vocabulary (`SupportLevel`, `ConfidenceLevel`) -/

inductive SupportLevel where
  | activelyMaintained
  | noLongerMaintained
  | abandoned
  | unknown
  deriving DecidableEq, Repr

inductive ConfidenceLevel where
  | high
  | medium
  | low
  | none
  deriving DecidableEq, Repr

/-! ### Framework support lifecycle database (`FRAMEWORK_SUPPORT`)

Association lists in the source's insertion order; each entry is
`(framework-version key, (EOL date, support status))`. -/

def dotnetSupport : List (String × String × String) :=
  [(".NET 9.0", "2026-05-12", "STS"),
   (".NET 8.0", "2026-11-10", "LTS"),
   (".NET 7.0", "2024-05-14", "EOL"),
   (".NET 6.0", "2024-11-12", "EOL"),
   (".NET 5.0", "2022-05-10", "EOL"),
   (".NET Core 3.1", "2022-12-13", "EOL"),
   (".NET Core 3.0", "2020-03-03", "EOL"),
   (".NET Core 2.1", "2021-08-21", "EOL"),
   (".NET Framework 4.8", "2028-01-11", "LTS"),
   (".NET Framework 4.7", "2028-01-11", "LTS"),
   (".NET Framework 4.6", "2028-01-11", "LTS")]

def javaSupport : List (String × String × String) :=
  [("Java 21", "2031-09-01", "LTS"),
   ("Java 17", "2029-09-01", "LTS"),
   ("Java 11", "2026-09-01", "LTS"),
   ("Java 8", "2030-12-01", "LTS"),
   ("Java 7", "2022-07-01", "EOL"),
   ("Java 6", "2018-12-01", "EOL")]

def pythonSupport : List (String × String × String) :=
  [("Python 3.13", "2029-10-01", "Active"),
   ("Python 3.12", "2028-10-01", "Active"),
   ("Python 3.11", "2027-10-01", "Active"),
   ("Python 3.10", "2026-10-01", "Active"),
   ("Python 3.9", "2025-10-01", "Security"),
   ("Python 3.8", "2024-10-01", "EOL"),
   ("Python 3.7", "2023-06-27", "EOL"),
   ("Python 3.6", "2021-12-23", "EOL"),
   ("Python 2.7", "2020-01-01", "EOL")]

def nodejsSupport : List (String × String × String) :=
  [("Node.js 22", "2027-04-30", "LTS"),
   ("Node.js 20", "2026-04-30", "LTS"),
   ("Node.js 18", "2025-04-30", "LTS"),
   ("Node.js 16", "2023-09-11", "EOL"),
   ("Node.js 14", "2023-04-30", "EOL"),
   ("Node.js 12", "2022-04-30", "EOL")]

def springSupport : List (String × String × String) :=
  [("Spring Boot 3.x", "2025-11-01", "Active"),
   ("Spring Boot 2.x", "2023-11-24", "EOL"),
   ("Spring Framework 6.x", "2026-12-01", "Active"),
   ("Spring Framework 5.x", "2024-12-31", "EOL")]

def FRAMEWORK_SUPPORT : List (String × List (String × String × String)) :=
  [("dotnet", dotnetSupport),
   ("java", javaSupport),
   ("python", pythonSupport),
   ("nodejs", nodejsSupport),
   ("spring", springSupport)]

/-! ### Framework detection (`_detect_framework`)

`FRAMEWORK_PATTERNS` holds anchored regular expressions matched with
`re.match(..., re.IGNORECASE)`.  Each is a case-insensitive prefix check,
except `^NETStandard\.Library$` which is a full-string match.  The
NuGet-ecosystem hint afterwards uses case-sensitive `str.startswith`. -/

def detectFramework (name : String) (ecosystem : Option String) : Option String :=
  let n := strLower name
  if strStartsWith n "system." ∨ strStartsWith n "microsoft.netcore."
      ∨ strStartsWith n "microsoft.extensions." ∨ strStartsWith n "runtime.native."
      ∨ strStartsWith n "runtime." ∨ n = "netstandard.library" then
    some "dotnet"
  else if strStartsWith n "java." ∨ strStartsWith n "javax."
      ∨ strStartsWith n "jakarta." then
    some "java"
  else if n = "python" ∨ n = "cpython" then
    some "python"
  else if n = "node" ∨ n = "nodejs" then
    some "nodejs"
  else if strStartsWith n "spring-" ∨ strStartsWith n "org.springframework." then
    some "spring"
  else if ecosystem = some "nuget"
      ∧ (strStartsWith name "System." ∨ strStartsWith name "Microsoft."
          ∨ strStartsWith name "runtime.") then
    some "dotnet"
  else
    Option.none

/-- The regex `^(\d+)\.(\d+)` on the version string: leading digit run,
a dot, another digit run; groups returned as strings. -/
def parseMajorMinor (version : String) : Option (String × String) :=
  let maj := version.data.takeWhile Char.isDigit
  let rest := version.data.dropWhile Char.isDigit
  if maj ≠ [] then
    match rest with
    | '.' :: rest2 =>
      let minr := rest2.takeWhile Char.isDigit
      if minr ≠ [] then some (⟨maj⟩, ⟨minr⟩) else Option.none
    | _ => Option.none
  else Option.none

/-- First table entry whose key contains `version` as a substring
(the generic matching loop of `_get_framework_support`). -/
def genericFrameworkMatch (tbl : List (String × String × String))
    (version : String) : Option (String × String) :=
  (tbl.find? (fun e => strContains e.1 version)).map (·.2)

/-- Embeds `_get_framework_support`: dotnet gets `major.minor` / `major`
containment matching against the table keys, then every framework falls
back to substring matching of the raw version inside the keys. -/
def getFrameworkSupport (framework version : String) : Option (String × String) :=
  match FRAMEWORK_SUPPORT.find? (fun e => e.1 = framework) with
  | Option.none => Option.none
  | some (_, tbl) =>
    if framework = "dotnet" then
      match parseMajorMinor version with
      | some (maj, minr) =>
        match tbl.find? (fun e =>
            strContains e.1 (".NET " ++ maj ++ "." ++ minr)
              ∨ strContains e.1 (".NET " ++ maj)) with
        | some e => some e.2
        | Option.none =>
          match tbl.find? (fun e => strContains e.1 (".NET " ++ maj)) with
          | some e => some e.2
          | Option.none => genericFrameworkMatch tbl version
      | Option.none => genericFrameworkMatch tbl version
    else genericFrameworkMatch tbl version

/-- Embeds `_is_framework_supported`: parse the tabulated EOL date and report
`(is_supported, eol_date, support_status)`; a parse failure is swallowed
into `none`. -/
def isFrameworkSupported (today : DateTime) (framework version : String) :
    Option (Bool × String × String) :=
  match getFrameworkSupport framework version with
  | Option.none => Option.none
  | some (eolStr, status) =>
    match parseDateYMD eolStr with
    | some eolDt =>
      some (decide (dtSecs today < dtSecs eolDt) && !(status = "EOL" : Bool),
        eolStr, status)
    | Option.none => Option.none

/-- STEP 1 of `_calculate_support_level`: the framework rule fires only
when a framework is detected and its lifecycle entry resolves. -/
def frameworkLifecycle (today : DateTime) (name version : String)
    (ecosystem : Option String) : Option (Bool × String × String) :=
  match detectFramework name ecosystem with
  | some fw => isFrameworkSupported today fw version
  | Option.none => Option.none

/-! ### Package and repository snapshots -/

/-- The package-registry snapshot dictionaries; absent keys read through
`dict.get` become the defaults here. -/
structure PackageData where
  success : Bool
  latest_version : Option String := Option.none
  latest_date : Option DateTime := Option.none
  deprecated : Bool := false
  version_count : Nat := 0
  repo_url : Option String := Option.none
  is_specific_version : Bool := false
  deriving DecidableEq, Repr

/-- The GitHub repository dictionaries built by `_get_github_repo_info`. -/
structure RepoData where
  archived : Bool := false
  last_commit_date : Option DateTime := Option.none
  open_issues : Nat := 0
  forks : Nat := 0
  stargazers : Nat := 0
  owner : String := ""
  repo : String := ""
  deriving DecidableEq, Repr

/-- Python expression `package_data.get('latest_date').strftime('%Y-%m-%d') if ... else 'Unknown'`. -/
def latestDateOrUnknown (pd : PackageData) : String :=
  match pd.latest_date with
  | some d => fmtDate d
  | Option.none => "Unknown"

/-- Python expression `self.product_eol_date if self.product_eol_date else 'Not specified'`. -/
def productEolString (productEol : Option String) : String :=
  if pyTruthy productEol then productEol.getD "" else "Not specified"

/-- Python expression `repo_data and repo_data.get('archived')`. -/
def repoArchived (rd : Option RepoData) : Bool :=
  match rd with
  | some r => r.archived
  | Option.none => false

/-- Flag `recent_commits`: a repository commit within 365 days of `today`. -/
def recentCommitsFlag (today : DateTime) (rd : Option RepoData) : Bool :=
  match rd with
  | some r =>
    match r.last_commit_date with
    | some lcd => decide (daysBetween today lcd ≤ 365)
    | Option.none => false
  | Option.none => false

/-- Flag `some_commits`: a commit within 730 days (the source sets it both in
the `<= 365` branch and in the `elif <= 730` branch, which collapses to
this single bound). -/
def someCommitsFlag (today : DateTime) (rd : Option RepoData) : Bool :=
  match rd with
  | some r =>
    match r.last_commit_date with
    | some lcd => decide (daysBetween today lcd ≤ 730)
    | Option.none => false
  | Option.none => false

/-- Embeds `_calculate_support_level` (lines 1066-1179): the ordered decision
procedure.  `high_community_engagement` is computed by the source but
never read by any return path, so it is omitted.  Returns
`(support_level, end_of_life, confidence)` like the source. -/
def calculateSupportLevel (today : DateTime) (productEol : Option String)
    (packageData : PackageData) (repoData : Option RepoData)
    (daysSinceRelease : Option Int) (name version : String)
    (ecosystem : Option String) : SupportLevel × String × ConfidenceLevel :=
  match frameworkLifecycle today name version ecosystem with
  | some (isSupported, eolDate, _) =>
    if isSupported then
      (SupportLevel.activelyMaintained, eolDate, ConfidenceLevel.high)
    else
      (SupportLevel.noLongerMaintained, eolDate, ConfidenceLevel.high)
  | Option.none =>
    if packageData.deprecated then
      (SupportLevel.abandoned, latestDateOrUnknown packageData, ConfidenceLevel.high)
    else if repoArchived repoData then
      (SupportLevel.abandoned, latestDateOrUnknown packageData, ConfidenceLevel.high)
    else
      match daysSinceRelease with
      | Option.none =>
        (SupportLevel.unknown, "Cannot determine", ConfidenceLevel.none)
      | some dsr =>
        if dsr ≤ 1825 then
          (SupportLevel.activelyMaintained, productEolString productEol,
            if recentCommitsFlag today repoData || someCommitsFlag today repoData then
              ConfidenceLevel.high
            else ConfidenceLevel.medium)
        else
          (SupportLevel.noLongerMaintained, latestDateOrUnknown packageData,
            ConfidenceLevel.medium)

/-! ### Identifier resolver (`_parse_purl`) -/

structure ParsedIdentifier where
  ecosystem : String
  namespc : Option String
  name : String
  version : Option String
  deriving DecidableEq, Repr

/-- Python `name.split('?')[0]` guarded by `if '?' in name`. -/
def stripQualifier (l : List Char) : List Char :=
  if l.contains '?' then (splitOnChar '?' l).headD [] else l

/-- The `try` body of `_parse_purl` once the `pkg:` scheme is stripped:
segment split, namespace selection, name/version split at the last `@`,
qualifier stripping.  The body performs no fallible operation, so the
`except` branch of the source is unreachable and this function is total.
A body with more than three `/`-separated segments silently drops the
extra segments, exactly as `parts[2]` does. -/
def parsePurlBody (body : List Char) : ParsedIdentifier :=
  let parts := splitOnChar '/' body
  let epn : List Char × Option (List Char) × List Char :=
    match parts with
    | [] => ([], Option.none, [])
    | [p0] => (p0, Option.none, p0)
    | [p0, p1] => (p0, Option.none, p1)
    | p0 :: p1 :: p2 :: _ => (p0, some p1, p2)
  let nv : List Char × Option (List Char) :=
    match rsplitLast '@' epn.2.2 with
    | some (n, v) => (n, some v)
    | Option.none => (epn.2.2, Option.none)
  let name := stripQualifier nv.1
  let version :=
    match nv.2 with
    | some v => some (if v ≠ [] ∧ v.contains '?' then stripQualifier v else v)
    | Option.none => Option.none
  { ecosystem := ⟨epn.1⟩, namespc := epn.2.1.map (⟨·⟩),
    name := ⟨name⟩, version := version.map (⟨·⟩) }

/-- Embeds `_parse_purl` (lines 378-420): non-`pkg:` input (and the empty
string) is rejected up front; everything else parses through
`parsePurlBody`. -/
def parsePurl (purl : String) : Option ParsedIdentifier :=
  if !strStartsWith purl "pkg:" then Option.none
  else some (parsePurlBody (purl.data.drop 4))

/-- Builds the `pkg:` identifier string
`pkg:eco/[ns/]name[@ver][?qual]`; the reconstruction direction of the
round-trip property uses it with no qualifier. -/
def mkPurl (eco : String) (ns : Option String) (name : String)
    (ver : Option String) (qual : Option String) : String :=
  "pkg:" ++ eco ++ "/" ++ (match ns with | some n => n ++ "/" | Option.none => "")
    ++ name ++ (match ver with | some v => "@" ++ v | Option.none => "")
    ++ (match qual with | some q => "?" ++ q | Option.none => "")

/-- Reassembles an identifier from the parsed fields
(`ecosystem/namespace?/name@version?`, qualifiers disregarded). -/
def unparsePurl (p : ParsedIdentifier) : String :=
  mkPurl p.ecosystem p.namespc p.name p.version Option.none

/-- Modelled from the spec: the spec calls its round-trip inputs
"well-formed `pkg:` identifiers" without pinning the grammar down; §4.1
describes bodies of two or three `/`-separated segments with the version
after the last `@` and qualifiers after `?`.  This predicate makes that
shape precise: nonempty ecosystem/namespace/name, no separator character
reused inside a field, and qualifiers free of `/` and `@`. -/
def wellFormedPurlParts (eco : String) (ns : Option String) (name : String)
    (ver : Option String) (qual : Option String) : Bool :=
  !eco.data.isEmpty && !eco.data.contains '/'
    && (match ns with
        | some n => !n.data.isEmpty && !n.data.contains '/'
        | Option.none => true)
    && !name.data.isEmpty && !name.data.contains '/'
      && !name.data.contains '@' && !name.data.contains '?'
    && (match ver with
        | some v => !v.data.contains '/' && !v.data.contains '@'
            && !v.data.contains '?'
        | Option.none => true)
    && (match qual with
        | some q => !q.data.contains '/' && !q.data.contains '@'
        | Option.none => true)

/-! ### Version-release matcher (`_get_github_release_for_version`) -/

/-- One entry of the GitHub releases listing; `tag_name` and `name`
default to `""` via `release.get(..., '')`. -/
structure Release where
  tag_name : String := ""
  name : String := ""
  published_at : Option String := Option.none
  deriving DecidableEq, Repr

/-- One entry of the GitHub tags listing. -/
structure GitTag where
  name : String := ""
  commitSha : Option String := Option.none
  deriving DecidableEq, Repr

/-- Computes `numeric_version`: when the version string contains a space, the
first whitespace-separated token containing a digit (e.g.
`"Json.NET 2.0"` → `"2.0"`); otherwise the version itself. -/
def numericVersion (version : String) : String :=
  if charIn ' ' version then
    match (pySplitWs version).find? (fun part => part.data.any Char.isDigit) with
    | some part => part
    | Option.none => version
  else version

/-- The `version_patterns` candidate list, in source order.  When the
version has no space the numeric-token candidates degenerate to
duplicates of the first two entries. -/
def versionPatterns (version : String) : List String :=
  let nv := numericVersion version
  [version,
   "v" ++ version,
   nv,
   "v" ++ nv,
   strReplaceChar version ' ' '_',
   strReplaceChar version ' ' '-',
   if countChar version '.' = 1 then version ++ ".0" else version,
   if charIn '-' version then takeBeforeChar '-' version else version]

/-- The release-loop match test: candidate (lowercased) against the
release's lowercased tag name and display name. -/
def releaseMatches (pat : String) (r : Release) : Bool :=
  let tagName := strLower r.tag_name
  let relName := strLower r.name
  let pl := strLower pat
  strContains tagName pl || pl = lstripV tagName || strContains relName pl
    || strReplaceChar tagName '_' ' ' = pl || strReplaceChar tagName '-' ' ' = pl

/-- The tag-loop match test (no display name on tags). -/
def tagMatches (pat : String) (t : GitTag) : Bool :=
  let tagName := strLower t.name
  let pl := strLower pat
  strContains tagName pl || pl = lstripV tagName
    || strReplaceChar tagName '_' ' ' = pl || strReplaceChar tagName '-' ' ' = pl

/-- First non-`none` value of `f` along the list: the shape of every
`for ... : if ...: return ...` loop in the matcher. -/
def firstSome (f : α → Option β) : List α → Option β
  | [] => Option.none
  | a :: as =>
    match f a with
    | some b => some b
    | Option.none => firstSome f as

/-- The inner candidate loop for one release: the first candidate that
matches *and* carries a parseable `published_at` returns that date;
a match with a missing or unparseable date falls through. -/
def tryRelease (pats : List String) (r : Release) : Option DateTime :=
  firstSome (fun pat =>
    if releaseMatches pat r then
      if pyTruthy r.published_at then parseGithubTimestamp (r.published_at.getD "")
      else Option.none
    else Option.none) pats

/-- The inner candidate loop for one tag: a match resolves the tag's
commit date through the follow-up `commits/{sha}` lookup
(`commitDate`, `none` when the request fails or the field is absent). -/
def tryTag (pats : List String) (commitDate : String → Option String)
    (t : GitTag) : Option DateTime :=
  firstSome (fun pat =>
    if tagMatches pat t then
      match t.commitSha with
      | some sha =>
        if sha ≠ "" then
          match commitDate sha with
          | some ds => if ds ≠ "" then parseGithubTimestamp ds else Option.none
          | Option.none => Option.none
        else Option.none
      | Option.none => Option.none
    else Option.none) pats

/-- Embeds `_get_github_release_for_version` (lines 473-558).  `releasesData` /
`tagsData` are the decoded JSON of the Releases and Tags endpoints
(`none` = request failed).  The source assigns `version_patterns` only
inside the `if releases_data and isinstance(releases_data, list)` branch;
when the releases data is absent or an empty list and the tags list is
nonempty, the tags loop reads the unassigned variable, the resulting
error is caught by the enclosing handler, and the function returns no
date. -/
def getGithubReleaseForVersion (version : String)
    (releasesData : Option (List Release)) (tagsData : Option (List GitTag))
    (commitDate : String → Option String) : Option DateTime :=
  match releasesData with
  | some (r :: rs) =>
    let pats := versionPatterns version
    match firstSome (tryRelease pats) (r :: rs) with
    | some d => some d
    | Option.none =>
      match tagsData with
      | some (t :: ts) => firstSome (tryTag pats commitDate) (t :: ts)
      | _ => Option.none
  | _ => Option.none

/-! ### NuGet registry client (`_analyze_nuget_package`)

The registration index delivers registration items whose package lists
are either inline or fetched through an `@id` page link; the network
layer is abstracted here by handing the function the already-resolved
list of package items per registration item (a failed page fetch
resolves to `[]`, as in the source). -/

/-- The `catalogEntry` object; `dict.get` on a missing key yields the
defaults.  `hasDeprecation` models `catalog_entry.get('deprecation') is
not None`. -/
structure CatalogEntry where
  version : Option String := Option.none
  published : Option String := Option.none
  hasDeprecation : Bool := false
  projectUrl : Option String := Option.none
  licenseUrl : Option String := Option.none
  deriving DecidableEq, Repr

structure PackageItem where
  catalogEntry : CatalogEntry := {}
  commitTimeStamp : Option String := Option.none
  deriving DecidableEq, Repr

/-- One element of the `versions` list built by the loop. -/
structure VersionEntry where
  version : Option String := Option.none
  published : Option String := Option.none
  deprecated : Bool := false
  deriving DecidableEq, Repr

/-- Per-item processing: the `1900-01-01` sentinel on `published` is
replaced by a present (truthy) `commitTimeStamp`. -/
def processItem (it : PackageItem) : VersionEntry :=
  let published := it.catalogEntry.published
  let published :=
    if strStartsWith (published.getD "") "1900-01-01" ∧ pyTruthy published then
      match it.commitTimeStamp with
      | some ts => if ts ≠ "" then some ts else published
      | Option.none => published
    else published
  { version := it.catalogEntry.version, published := published,
    deprecated := it.catalogEntry.hasDeprecation }

/-- State threaded through the nuget package-item loop. -/
structure NugetLoopState where
  versions : List VersionEntry := []
  specific : Option VersionEntry := Option.none
  repoUrl : Option String := Option.none
  deriving Repr

/-- One iteration of the package-item loop: append the processed entry,
overwrite `specific` on an exact version match, and fill `repo_url`
from `projectUrl or licenseUrl` while it is still unset. -/
def nugetStep (version : String) (st : NugetLoopState) (it : PackageItem) :
    NugetLoopState :=
  let entry := processItem it
  let specific :=
    if it.catalogEntry.version = some version then some entry else st.specific
  let repoUrl :=
    if pyTruthy st.repoUrl then st.repoUrl
    else if pyTruthy it.catalogEntry.projectUrl then it.catalogEntry.projectUrl
    else it.catalogEntry.licenseUrl
  { versions := st.versions ++ [entry], specific := specific, repoUrl := repoUrl }

/-- Sort key: `x['published'] if x['published'] else ''`. -/
def publishedKey (e : VersionEntry) : String := e.published.getD ""

/-- Python `sorted(versions, key=..., reverse=True)`: stable, descending by the
published string. -/
def sortVersionsDesc (l : List VersionEntry) : List VersionEntry :=
  l.mergeSort (fun a b => decide (publishedKey b ≤ publishedKey a))

/-- The package snapshot returned by the registry clients. -/
structure NugetResult where
  success : Bool
  latest_version : Option String := Option.none
  latest_date : Option DateTime := Option.none
  deprecated : Bool := false
  version_count : Nat := 0
  repo_url : Option String := Option.none
  is_specific_version : Bool := false
  deriving DecidableEq, Repr

/-- Embeds `_analyze_nuget_package` (lines 774-878) over the resolved
registration pages; `data = none` models a failed index request. -/
def analyzeNugetPackage (version : String)
    (data : Option (List (List PackageItem))) : NugetResult :=
  match data with
  | Option.none => { success := false }
  | some regItems =>
    let st := regItems.flatten.foldl (nugetStep version) {}
    if st.versions.isEmpty then { success := false }
    else
      let sorted := sortVersionsDesc st.versions
      let target :=
        match st.specific with
        | some t => t
        | Option.none => sorted.headD {}
      let latestDate :=
        if pyTruthy target.published then parseNugetDate (target.published.getD "")
        else Option.none
      { success := true, latest_version := target.version,
        latest_date := latestDate, deprecated := target.deprecated,
        version_count := st.versions.length, repo_url := st.repoUrl,
        is_specific_version := st.specific.isSome }

/-- The last package item whose catalog version equals the requested
version: characterizes the final value of `specific_version_data`. -/
def lastMatch (version : String) : List PackageItem → Option PackageItem
  | [] => Option.none
  | it :: its =>
    match lastMatch version its with
    | some r => some r
    | Option.none =>
      if it.catalogEntry.version = some version then some it else Option.none

/-! ### Component analysis (`analyze_component`)

The registry and repository clients perform network I/O; they are passed
in as oracles producing the same snapshots the source builds, with
`Option`/`success := false` covering every failure.  With that boundary
the embedded `analyzeComponent` is a total function: every fallible step
degrades to a failure value instead of raising. -/

structure ExternalRef where
  refType : Option String := Option.none
  url : Option String := Option.none
  deriving DecidableEq, Repr

structure Component where
  name : String := "Unknown"
  version : String := "Unknown"
  purl : Option String := Option.none
  externalReferences : List ExternalRef := []
  deriving DecidableEq, Repr

/-- The oracle bundle standing for the network-backed analyzers. -/
structure Clients where
  nugetClient : String → String → PackageData
  npmClient : String → String → PackageData
  pypiClient : String → String → PackageData
  mavenClient : String → String → String → PackageData
  cocoapodsClient : String → String → PackageData
  githubRepoInfo : String → Option RepoData
  analyzeFromUrl : String → String → String → PackageData

/-- The fallback URL candidate list: reference types in the priority
order `vcs, repository, website, distribution` (no deduplication), then
every remaining truthy URL not already listed. -/
def urlsToTry (refs : List ExternalRef) : List String :=
  let fromPriority :=
    ["vcs", "repository", "website", "distribution"].foldr
      (fun t acc =>
        refs.filterMap (fun r =>
          if r.refType = some t ∧ pyTruthy r.url then some (r.url.getD "")
          else Option.none) ++ acc) []
  refs.foldl
    (fun acc r =>
      if pyTruthy r.url ∧ ¬ acc.contains (r.url.getD "") then
        acc ++ [r.url.getD ""]
      else acc)
    fromPriority

/-- Python loop `for url in urls_to_try`, breaking on success; on exhaustion the
last attempted snapshot (or the initial one) is kept. -/
def tryUrls (f : String → PackageData) : List String → PackageData → PackageData
  | [], init => init
  | u :: us, _ =>
    let pd := f u
    if pd.success then pd else tryUrls f us pd

/-- The ecosystem dispatch of `analyze_component` once a PURL parses.
For `pkg:github` components the namespace slot renders through Python's
f-string, so an absent namespace literally becomes the text `"None"`. -/
def registryLookup (clients : Clients) (pd : ParsedIdentifier)
    (compVersion : String) : PackageData :=
  let pkgVersion :=
    match pd.version with
    | some v => if v ≠ "" then v else compVersion
    | Option.none => compVersion
  if pd.ecosystem = "nuget" then clients.nugetClient pd.name pkgVersion
  else if pd.ecosystem = "npm" then clients.npmClient pd.name pkgVersion
  else if pd.ecosystem = "pypi" then clients.pypiClient pd.name pkgVersion
  else if pd.ecosystem = "maven" then
    if pyTruthy pd.namespc then
      clients.mavenClient (pd.namespc.getD "") pd.name pkgVersion
    else { success := false }
  else if pd.ecosystem = "cocoapods" then clients.cocoapodsClient pd.name pkgVersion
  else if pd.ecosystem = "github" then
    let nsText := match pd.namespc with | some n => n | Option.none => "None"
    let repoUrl := "https://github.com/" ++ nsText ++ "/" ++ pd.name
    match clients.githubRepoInfo repoUrl with
    | some rd =>
      { success := true, latest_date := rd.last_commit_date,
        deprecated := rd.archived }
    | Option.none => { success := false }
  else { success := false }

/-- Computes `purl_data`: the PURL is parsed only when present and truthy. -/
def componentPurlData (comp : Component) : Option ParsedIdentifier :=
  match comp.purl with
  | some p => if p ≠ "" then parsePurl p else Option.none
  | Option.none => Option.none

/-- The package-data resolution chain: registry lookup from the PURL,
then the fallback URL walk. -/
def resolvePackageData (clients : Clients) (comp : Component) : PackageData :=
  let fromPurl :=
    match componentPurlData comp with
    | some pd => registryLookup clients pd comp.version
    | Option.none => { success := false }
  if fromPurl.success then fromPurl
  else tryUrls (fun u => clients.analyzeFromUrl u comp.name comp.version)
    (urlsToTry comp.externalReferences) fromPurl

/-- The external-reference scan for a GitHub repository URL (used when
the snapshot carries none). -/
def findGithubRef (refs : List ExternalRef) : Option String :=
  (refs.find? (fun r =>
    (r.refType = some "vcs" ∨ r.refType = some "website")
      ∧ strContains (r.url.getD "") "github.com")).map (fun r => r.url.getD "")

/-- The repository-data step: the snapshot's `repo_url` (when truthy),
else the first GitHub URL among the references; fetched only when it
mentions `github.com`. -/
def resolveRepoData (clients : Clients) (comp : Component)
    (packageData : PackageData) : Option RepoData :=
  let repoUrl :=
    if pyTruthy packageData.repo_url then packageData.repo_url
    else findGithubRef comp.externalReferences
  match repoUrl with
  | some u =>
    if strContains u "github.com" then clients.githubRepoInfo u else Option.none
  | Option.none => Option.none

/-- The per-component output record. -/
structure AnalysisResult where
  name : String
  version : String
  support_level : SupportLevel
  end_of_life : String
  confidence : ConfidenceLevel
  last_release_date : Option String := Option.none
  days_since_release : Option Int := Option.none
  last_commit_date : Option String := Option.none
  deriving DecidableEq, Repr

/-- The initial result dictionary of `analyze_component`, returned
untouched whenever no package data resolves. -/
def baseResult (comp : Component) : AnalysisResult :=
  { name := comp.name, version := comp.version,
    support_level := SupportLevel.unknown,
    end_of_life := "Cannot determine",
    confidence := ConfidenceLevel.none }

/-- Embeds `analyze_component` (lines 1194-1338) over the client oracles. -/
def analyzeComponent (clients : Clients) (today : DateTime)
    (productEol : Option String) (comp : Component) : AnalysisResult :=
  let purlData := componentPurlData comp
  let packageData := resolvePackageData clients comp
  if ¬ packageData.success then baseResult comp
  else
    let dsr :=
      match packageData.latest_date with
      | some d => some (daysBetween today d)
      | Option.none => Option.none
    let lrd :=
      match packageData.latest_date with
      | some d => some (fmtDate d)
      | Option.none => Option.none
    let repoData := resolveRepoData clients comp packageData
    let lcd :=
      match repoData with
      | some rd =>
        match rd.last_commit_date with
        | some d => some (fmtDate d)
        | Option.none => Option.none
      | Option.none => Option.none
    let slec :=
      calculateSupportLevel today productEol packageData repoData dsr
        comp.name comp.version (purlData.map (·.ecosystem))
    { name := comp.name, version := comp.version, support_level := slec.1,
      end_of_life := slec.2.1, confidence := slec.2.2, last_release_date := lrd,
      days_since_release := dsr, last_commit_date := lcd }

/-! ### Helper lemmas -/

/-- A commit within 365 days is in particular within 730 days, so the
`recent_commits or some_commits` confidence test collapses to the
24-month bound. -/
theorem recent_or_some_eq_some (today : DateTime) (rd : Option RepoData) :
    (recentCommitsFlag today rd || someCommitsFlag today rd)
      = someCommitsFlag today rd := by
  rcases rd with _ | r
  · rfl
  · rcases h : r.last_commit_date with _ | lcd
    · simp [recentCommitsFlag, someCommitsFlag, h]
    · simp only [recentCommitsFlag, someCommitsFlag, h]
      by_cases h365 : daysBetween today lcd ≤ 365
      · have h730 : daysBetween today lcd ≤ 730 := by omega
        simp [h365, h730]
      · simp [h365]

/-- The framework rule of `_calculate_support_level`, phrased through the
resolved table entry and its parsed EOL date. -/
theorem calc_framework_rule (today : DateTime) (productEol : Option String)
    (packageData : PackageData) (repoData : Option RepoData)
    (daysSinceRelease : Option Int) (name version : String)
    (ecosystem : Option String) (fw eolStr status : String) (eolDt : DateTime)
    (hdet : detectFramework name ecosystem = some fw)
    (hsup : getFrameworkSupport fw version = some (eolStr, status))
    (hparse : parseDateYMD eolStr = some eolDt) :
    calculateSupportLevel today productEol packageData repoData daysSinceRelease
        name version ecosystem =
      if dtSecs today < dtSecs eolDt ∧ status ≠ "EOL" then
        (SupportLevel.activelyMaintained, eolStr, ConfidenceLevel.high)
      else
        (SupportLevel.noLongerMaintained, eolStr, ConfidenceLevel.high) := by
  have hfw : frameworkLifecycle today name version ecosystem
      = some (decide (dtSecs today < dtSecs eolDt) && !(status = "EOL" : Bool),
          eolStr, status) := by
    simp [frameworkLifecycle, hdet, isFrameworkSupported, hsup, hparse]
  by_cases h : dtSecs today < dtSecs eolDt ∧ status ≠ "EOL"
  · simp [calculateSupportLevel, hfw, h.1, h.2, if_pos h]
  · rw [if_neg h]
    rw [Decidable.not_and_iff_or_not] at h
    rcases h with h | h
    · simp [calculateSupportLevel, hfw, h]
    · simp only [ne_eq, not_not] at h
      simp [calculateSupportLevel, hfw, h]

/-- No branch of `_calculate_support_level` yields confidence LOW. -/
theorem calc_confidence_cases (today : DateTime) (productEol : Option String)
    (packageData : PackageData) (repoData : Option RepoData)
    (daysSinceRelease : Option Int) (name version : String)
    (ecosystem : Option String) :
    (calculateSupportLevel today productEol packageData repoData daysSinceRelease
        name version ecosystem).2.2 = ConfidenceLevel.high
    ∨ (calculateSupportLevel today productEol packageData repoData daysSinceRelease
        name version ecosystem).2.2 = ConfidenceLevel.medium
    ∨ (calculateSupportLevel today productEol packageData repoData daysSinceRelease
        name version ecosystem).2.2 = ConfidenceLevel.none := by
  dsimp only [calculateSupportLevel]
  repeat' split
  all_goals simp

/-! ### Claim theorems -/

/-- C1: whenever the framework lifecycle matcher resolves the component's
name and version to a table entry, `_calculate_support_level` returns
`ACTIVELY_MAINTAINED`/`HIGH` with the entry's EOL date when that date is
after the analysis date and the tier is not `"EOL"`, and
`NO_LONGER_MAINTAINED`/`HIGH` with the same date otherwise; in
particular `pkg:nuget/System.Text.Json@8.0.1` resolves framework
`dotnet` to the `.NET 8.0` LTS entry and classifies
`ACTIVELY_MAINTAINED`/`HIGH` with EOL `2026-11-10` whenever the analysis
date precedes 2026-11-10. -/
theorem framework_match_classification (today : DateTime)
    (productEol : Option String) (packageData : PackageData)
    (repoData : Option RepoData) (daysSinceRelease : Option Int)
    (name version : String) (ecosystem : Option String)
    (fw eolStr status : String) (eolDt : DateTime)
    (hdet : detectFramework name ecosystem = some fw)
    (hsup : getFrameworkSupport fw version = some (eolStr, status))
    (hparse : parseDateYMD eolStr = some eolDt) :
    (calculateSupportLevel today productEol packageData repoData daysSinceRelease
        name version ecosystem =
      if dtSecs today < dtSecs eolDt ∧ status ≠ "EOL" then
        (SupportLevel.activelyMaintained, eolStr, ConfidenceLevel.high)
      else
        (SupportLevel.noLongerMaintained, eolStr, ConfidenceLevel.high))
    ∧ detectFramework "System.Text.Json" (some "nuget") = some "dotnet"
    ∧ getFrameworkSupport "dotnet" "8.0.1" = some ("2026-11-10", "LTS")
    ∧ (dtSecs today < dtSecs ⟨2026, 11, 10, 0, 0, 0⟩ →
        calculateSupportLevel today productEol packageData repoData
          daysSinceRelease "System.Text.Json" "8.0.1" (some "nuget") =
        (SupportLevel.activelyMaintained, "2026-11-10", ConfidenceLevel.high)) := by
  refine ⟨calc_framework_rule today productEol packageData repoData daysSinceRelease
    name version ecosystem fw eolStr status eolDt hdet hsup hparse,
    by decide, by decide, fun hlt => ?_⟩
  have h := calc_framework_rule today productEol packageData repoData
    daysSinceRelease "System.Text.Json" "8.0.1" (some "nuget") "dotnet"
    "2026-11-10" "LTS" ⟨2026, 11, 10, 0, 0, 0⟩ (by decide) (by decide) (by decide)
  rw [h, if_pos ⟨hlt, by decide⟩]

/-- Witness for C1 at the analysis date 2025-06-01. -/
theorem framework_match_classification_witness :
    calculateSupportLevel ⟨2025, 6, 1, 0, 0, 0⟩ Option.none { success := true }
        Option.none Option.none "System.Text.Json" "8.0.1" (some "nuget") =
      (SupportLevel.activelyMaintained, "2026-11-10", ConfidenceLevel.high) :=
  (framework_match_classification ⟨2025, 6, 1, 0, 0, 0⟩ Option.none
    { success := true } Option.none Option.none "System.Text.Json" "8.0.1"
    (some "nuget") "dotnet" "2026-11-10" "LTS" ⟨2026, 11, 10, 0, 0, 0⟩
    (by decide) (by decide) (by decide)).2.2.2 (by decide)

/-- C2 counterexample: a deprecated `System.Text.Json@8.0.1` snapshot is
classified `ACTIVELY_MAINTAINED`, not `ABANDONED` — the framework rule
(STEP 1) runs before the deprecation rule (STEP 2), so `deprecated =
true` does not force `ABANDONED` in the presence of a framework match. -/
theorem deprecation_precedence_counterexample :
    ({ success := true, latest_date := some ⟨2024, 1, 5, 0, 0, 0⟩,
        deprecated := true } : PackageData).deprecated = true
    ∧ calculateSupportLevel ⟨2025, 1, 1, 0, 0, 0⟩ Option.none
        { success := true, latest_date := some ⟨2024, 1, 5, 0, 0, 0⟩,
          deprecated := true }
        Option.none (some 10) "System.Text.Json" "8.0.1" (some "nuget")
      = (SupportLevel.activelyMaintained, "2026-11-10", ConfidenceLevel.high)
    ∧ SupportLevel.activelyMaintained ≠ SupportLevel.abandoned := by
  refine ⟨rfl, ?_, by decide⟩
  decide

/-- C2 (amended): when the framework lifecycle matcher resolves nothing,
`deprecated = true` forces `ABANDONED`/`HIGH` regardless of release age,
with end-of-life the last known release date (or `Unknown`). -/
theorem deprecation_forces_abandoned (today : DateTime)
    (productEol : Option String) (packageData : PackageData)
    (repoData : Option RepoData) (daysSinceRelease : Option Int)
    (name version : String) (ecosystem : Option String)
    (hfw : frameworkLifecycle today name version ecosystem = Option.none)
    (hdep : packageData.deprecated = true) :
    calculateSupportLevel today productEol packageData repoData daysSinceRelease
        name version ecosystem =
      (SupportLevel.abandoned, latestDateOrUnknown packageData,
        ConfidenceLevel.high) := by
  simp [calculateSupportLevel, hfw, hdep]

/-- Witness for the amended C2: a deprecated npm package, eight years
stale, with no framework match. -/
theorem deprecation_forces_abandoned_witness :
    calculateSupportLevel ⟨2024, 1, 1, 0, 0, 0⟩ Option.none
        { success := true, latest_date := some ⟨2016, 3, 23, 0, 0, 0⟩,
          deprecated := true }
        Option.none (some 2840) "left-pad" "1.0.0" (some "npm")
      = (SupportLevel.abandoned, "2016-03-23", ConfidenceLevel.high) := by
  have h := deprecation_forces_abandoned ⟨2024, 1, 1, 0, 0, 0⟩ Option.none
    { success := true, latest_date := some ⟨2016, 3, 23, 0, 0, 0⟩,
      deprecated := true }
    Option.none (some 2840) "left-pad" "1.0.0" (some "npm") (by decide) rfl
  rw [h]
  decide

/-- C3: under the (only implemented, lenient) profile, with no framework
match, no deprecation, no archival and a known `days_since_release`:
at most 1825 days (boundary inclusive) classifies
`ACTIVELY_MAINTAINED` with EOL the configured product EOL date (or
`Not specified`) and confidence `HIGH` exactly when repository commits
occurred within 730 days (24 months), else `MEDIUM`; above 1825 days
classifies `NO_LONGER_MAINTAINED`/`MEDIUM` with EOL the last known
release date. -/
theorem lenient_age_tiering (today : DateTime) (productEol : Option String)
    (packageData : PackageData) (repoData : Option RepoData) (n : Int)
    (name version : String) (ecosystem : Option String)
    (hfw : frameworkLifecycle today name version ecosystem = Option.none)
    (hdep : packageData.deprecated = false)
    (harch : repoArchived repoData = false) :
    (n ≤ 1825 →
      calculateSupportLevel today productEol packageData repoData (some n)
          name version ecosystem =
        (SupportLevel.activelyMaintained, productEolString productEol,
          if someCommitsFlag today repoData then ConfidenceLevel.high
          else ConfidenceLevel.medium))
    ∧ (1825 < n →
      calculateSupportLevel today productEol packageData repoData (some n)
          name version ecosystem =
        (SupportLevel.noLongerMaintained, latestDateOrUnknown packageData,
          ConfidenceLevel.medium)) := by
  constructor
  · intro hn
    simp [calculateSupportLevel, hfw, hdep, harch, hn, recent_or_some_eq_some]
  · intro hn
    have hn' : ¬ n ≤ 1825 := by omega
    simp [calculateSupportLevel, hfw, hdep, harch, hn']

/-- Witness for C3 at the inclusive boundary `days_since_release =
1825`, with a repository commit 400 days old (inside 24 months). -/
theorem lenient_age_tiering_witness :
    calculateSupportLevel ⟨2024, 1, 1, 0, 0, 0⟩ (some "2030-12-31")
        { success := true, latest_date := some ⟨2019, 1, 2, 0, 0, 0⟩ }
        (some { last_commit_date := some ⟨2022, 11, 27, 0, 0, 0⟩ })
        (some 1825) "left-pad" "1.0.0" (some "npm")
      = (SupportLevel.activelyMaintained, "2030-12-31", ConfidenceLevel.high) := by
  have h := (lenient_age_tiering ⟨2024, 1, 1, 0, 0, 0⟩ (some "2030-12-31")
    { success := true, latest_date := some ⟨2019, 1, 2, 0, 0, 0⟩ }
    (some { last_commit_date := some ⟨2022, 11, 27, 0, 0, 0⟩ })
    1825 "left-pad" "1.0.0" (some "npm") (by decide) rfl rfl).1 (by decide)
  rw [h]
  decide

/-- C8: `_parse_purl` is a total function — every input string yields
either a parsed identifier or a parse failure — and every input that
does not carry the `pkg:` scheme (the code's notion of malformed input,
its `try` body being exception-free) yields a parse failure rather than
a parsed identifier. -/
theorem parse_purl_never_throws (s : String) :
    (parsePurl s = Option.none ∨ ∃ p, parsePurl s = some p)
    ∧ (strStartsWith s "pkg:" = false → parsePurl s = Option.none) := by
  constructor
  · cases h : parsePurl s
    · exact Or.inl rfl
    · exact Or.inr ⟨_, rfl⟩
  · intro h
    simp [parsePurl, h]

/-- Witness for C8 on a malformed, non-`pkg:` input. -/
theorem parse_purl_never_throws_witness :
    parsePurl "https://example.com/not-a-purl" = Option.none :=
  (parse_purl_never_throws "https://example.com/not-a-purl").2 (by decide)

/-- C10 (implicit): the decision engine only ever emits confidence
`HIGH`, `MEDIUM` or `NONE`; the declared level `LOW` is unreachable, so
no analysis result produced by component analysis carries `LOW`. -/
theorem confidence_low_never_produced :
    (∀ (today : DateTime) (productEol : Option String)
        (packageData : PackageData) (repoData : Option RepoData)
        (daysSinceRelease : Option Int) (name version : String)
        (ecosystem : Option String),
      (calculateSupportLevel today productEol packageData repoData
          daysSinceRelease name version ecosystem).2.2 ≠ ConfidenceLevel.low)
    ∧ (∀ (clients : Clients) (today : DateTime) (productEol : Option String)
        (comp : Component),
      (analyzeComponent clients today productEol comp).confidence
        ≠ ConfidenceLevel.low) := by
  have hcalc : ∀ (today : DateTime) (productEol : Option String)
      (packageData : PackageData) (repoData : Option RepoData)
      (daysSinceRelease : Option Int) (name version : String)
      (ecosystem : Option String),
      (calculateSupportLevel today productEol packageData repoData
          daysSinceRelease name version ecosystem).2.2 ≠ ConfidenceLevel.low := by
    intro today productEol packageData repoData daysSinceRelease name version eco
    rcases calc_confidence_cases today productEol packageData repoData
      daysSinceRelease name version eco with h | h | h <;> simp [h]
  refine ⟨hcalc, fun clients today productEol comp => ?_⟩
  dsimp only [analyzeComponent]
  split
  · simp [baseResult]
  · exact hcalc _ _ _ _ _ _ _ _

/-- Applying `firstSome` skips a leading block on which `f` yields nothing. -/
theorem firstSome_append_none {α β : Type} (f : α → Option β)
    (l₁ l₂ : List α) (h : ∀ a ∈ l₁, f a = Option.none) :
    firstSome f (l₁ ++ l₂) = firstSome f l₂ := by
  induction l₁ with
  | nil => rfl
  | cons a as ih =>
    have ha : f a = Option.none := h a (List.mem_cons_self a as)
    simp only [List.cons_append, firstSome, ha]
    exact ih (fun x hx => h x (List.mem_cons_of_mem a hx))

/-- C4 (amended): the match candidates are generated in exactly the
listed order (the numeric-token pair degenerating to duplicates of the
first two when the version has no space); but when several releases
match different candidates, the winner is the first release in the
API's list order whose candidate scan yields a parseable date — release
order, not candidate order, breaks ties, because the release loop is
the outer loop. -/
theorem version_candidate_order (version : String) :
    (versionPatterns version =
      [version, "v" ++ version, numericVersion version,
       "v" ++ numericVersion version, strReplaceChar version ' ' '_',
       strReplaceChar version ' ' '-',
       (if countChar version '.' = 1 then version ++ ".0" else version),
       (if charIn '-' version then takeBeforeChar '-' version else version)])
    ∧ (∀ (rels₁ rels₂ : List Release) (r : Release) (d : DateTime)
        (tagsData : Option (List GitTag)) (commitDate : String → Option String),
      (∀ r' ∈ rels₁, tryRelease (versionPatterns version) r' = Option.none) →
      tryRelease (versionPatterns version) r = some d →
      getGithubReleaseForVersion version (some (rels₁ ++ r :: rels₂))
        tagsData commitDate = some d) := by
  refine ⟨rfl, fun rels₁ rels₂ r d tagsData commitDate hnone hr => ?_⟩
  have hfs : firstSome (tryRelease (versionPatterns version))
      (rels₁ ++ r :: rels₂) = some d := by
    rw [firstSome_append_none _ rels₁ (r :: rels₂) hnone]
    simp [firstSome, hr]
  cases rels₁ with
  | nil =>
    simp only [List.nil_append] at hfs ⊢
    simp [getGithubReleaseForVersion, hfs]
  | cons a as =>
    simp only [List.cons_append] at hfs ⊢
    simp [getGithubReleaseForVersion, hfs]

/-- Witness for the amended C4: the first release in list order wins even
though a later release matches an earlier-generated candidate. -/
theorem version_candidate_order_witness :
    getGithubReleaseForVersion "1.0-beta"
        (some [{ tag_name := "v1.0.0", name := "",
                 published_at := some "2024-01-02T00:00:00Z" },
               { tag_name := "v1.0-beta", name := "",
                 published_at := some "2023-05-05T00:00:00Z" }])
        (some []) (fun _ => Option.none)
      = some ⟨2024, 1, 2, 0, 0, 0⟩ :=
  (version_candidate_order "1.0-beta").2 []
    [{ tag_name := "v1.0-beta", name := "",
       published_at := some "2023-05-05T00:00:00Z" }]
    { tag_name := "v1.0.0", name := "", published_at := some "2024-01-02T00:00:00Z" }
    ⟨2024, 1, 2, 0, 0, 0⟩ (some []) (fun _ => Option.none)
    (by decide) (by decide)

/-- C4 counterexample: with version `"1.0-beta"`, the first candidate
`"1.0-beta"` does not match the first release (`v1.0.0`) but matches the
second (`v1.0-beta`); the claim's candidate-order tie-break would return
the second release's date, yet the code returns the first release's date
because the release loop is outermost. -/
theorem version_candidate_order_counterexample :
    releaseMatches "1.0-beta"
        { tag_name := "v1.0.0", name := "",
          published_at := some "2024-01-02T00:00:00Z" } = false
    ∧ releaseMatches "1.0-beta"
        { tag_name := "v1.0-beta", name := "",
          published_at := some "2023-05-05T00:00:00Z" } = true
    ∧ (versionPatterns "1.0-beta").headD "" = "1.0-beta"
    ∧ getGithubReleaseForVersion "1.0-beta"
        (some [{ tag_name := "v1.0.0", name := "",
                 published_at := some "2024-01-02T00:00:00Z" },
               { tag_name := "v1.0-beta", name := "",
                 published_at := some "2023-05-05T00:00:00Z" }])
        (some []) (fun _ => Option.none)
      = some ⟨2024, 1, 2, 0, 0, 0⟩
    ∧ (⟨2024, 1, 2, 0, 0, 0⟩ : DateTime) ≠ ⟨2023, 5, 5, 0, 0, 0⟩ := by
  decide

/-- C5: the tags fallback only ever runs when the releases lookup
produced a nonempty list; with no releases data (or an empty list) the
candidate list is never created, the tags loop's reference to it raises
inside the swallowing handler, and the function returns no date even
though the tag machinery would match — here version `"2.0"` against tags
`v2.0.0`, `v1.9.0` with a resolvable commit date.  With a nonempty
non-matching releases list the fallback does return the commit date of
`v2.0.0`. -/
theorem tags_fallback_requires_releases :
    getGithubReleaseForVersion "2.0" (some [])
        (some [{ name := "v2.0.0", commitSha := some "abc" },
               { name := "v1.9.0", commitSha := some "def" }])
        (fun sha => if sha = "abc" then some "2019-09-09T12:00:00Z"
          else Option.none)
      = Option.none
    ∧ getGithubReleaseForVersion "2.0" Option.none
        (some [{ name := "v2.0.0", commitSha := some "abc" },
               { name := "v1.9.0", commitSha := some "def" }])
        (fun sha => if sha = "abc" then some "2019-09-09T12:00:00Z"
          else Option.none)
      = Option.none
    ∧ tryTag (versionPatterns "2.0")
        (fun sha => if sha = "abc" then some "2019-09-09T12:00:00Z"
          else Option.none)
        { name := "v2.0.0", commitSha := some "abc" }
      = some ⟨2019, 9, 9, 12, 0, 0⟩
    ∧ getGithubReleaseForVersion "2.0"
        (some [{ tag_name := "unrelated", name := "",
                 published_at := some "2024-01-01T00:00:00Z" }])
        (some [{ name := "v2.0.0", commitSha := some "abc" },
               { name := "v1.9.0", commitSha := some "def" }])
        (fun sha => if sha = "abc" then some "2019-09-09T12:00:00Z"
          else Option.none)
      = some ⟨2019, 9, 9, 12, 0, 0⟩ := by
  decide

/-- The `specific_version_data` accumulator ends up holding the processed
entry of the last version-matching package item. -/
theorem nuget_foldl_specific (version : String) (items : List PackageItem)
    (st : NugetLoopState) :
    (items.foldl (nugetStep version) st).specific =
      match lastMatch version items with
      | some it => some (processItem it)
      | Option.none => st.specific := by
  induction items generalizing st with
  | nil => rfl
  | cons it its ih =>
    simp only [List.foldl_cons, lastMatch, ih]
    cases h : lastMatch version its with
    | some r => rfl
    | none =>
      by_cases hv : it.catalogEntry.version = some version
      · simp [nugetStep, hv]
      · simp [nugetStep, hv]

/-- The `versions` accumulator collects the processed entries in order. -/
theorem nuget_foldl_versions (version : String) (items : List PackageItem)
    (st : NugetLoopState) :
    (items.foldl (nugetStep version) st).versions =
      st.versions ++ items.map processItem := by
  induction items generalizing st with
  | nil => simp
  | cons it its ih =>
    simp only [List.foldl_cons, List.map_cons, ih]
    simp [nugetStep, List.append_assoc]

/-- A found last match means the item list is nonempty. -/
theorem lastMatch_ne_nil {version : String} {items : List PackageItem}
    {it : PackageItem} (h : lastMatch version items = some it) : items ≠ [] := by
  intro he
  subst he
  simp [lastMatch] at h

/-- A nonempty string cannot start with the ten-character sentinel while
being empty. -/
theorem startsWith_sentinel_ne_empty {p : String}
    (h : strStartsWith p "1900-01-01" = true) : p.data.isEmpty = false := by
  cases hd : p.data with
  | nil =>
    rw [strStartsWith, hd] at h
    simp [List.isPrefixOf] at h
  | cons c cs => simp

/-- A string distinct from `""` has nonempty character data. -/
theorem data_isEmpty_false {s : String} (h : s ≠ "") :
    s.data.isEmpty = false := by
  cases s with
  | mk data =>
    cases data with
    | nil => exact absurd rfl h
    | cons c cs => rfl

/-- C6: when the requested version's (last-matching) catalog entry has a
`published` field carrying the `1900-01-01` sentinel and the package
item carries a present commit timestamp, the snapshot's `latest_date` is
derived from that commit timestamp — never from the sentinel date. -/
theorem nuget_sentinel_commit_timestamp (regItems : List (List PackageItem))
    (version p ts : String) (it : PackageItem)
    (hlast : lastMatch version regItems.flatten = some it)
    (hp : it.catalogEntry.published = some p)
    (hsent : strStartsWith p "1900-01-01" = true)
    (hts : it.commitTimeStamp = some ts) (htsne : ts ≠ "") :
    (analyzeNugetPackage version (some regItems)).latest_date
      = parseNugetDate ts
    ∧ (analyzeNugetPackage version (some regItems)).success = true := by
  have hproc : processItem it =
      { version := it.catalogEntry.version, published := some ts,
        deprecated := it.catalogEntry.hasDeprecation } := by
    rw [processItem, hp, hts]
    have hne := startsWith_sentinel_ne_empty hsent
    simp [hsent, pyTruthy, hne, htsne]
  have hspec : (regItems.flatten.foldl (nugetStep version) {}).specific
      = some (processItem it) := by
    rw [nuget_foldl_specific, hlast]
  have hvers : (regItems.flatten.foldl (nugetStep version) {}).versions
      = regItems.flatten.map processItem := by
    rw [nuget_foldl_versions]
    rfl
  have hne : regItems.flatten.map processItem ≠ [] := by
    have := lastMatch_ne_nil hlast
    simpa using this
  have hnotEmpty : (regItems.flatten.foldl (nugetStep version) {}).versions.isEmpty
      = false := by
    rw [hvers]
    simpa [List.isEmpty_iff] using hne
  have htsd : ts.data.isEmpty = false := data_isEmpty_false htsne
  constructor <;>
    simp [analyzeNugetPackage, hnotEmpty, hspec, hproc, pyTruthy, htsd]

/-- Witness for C6: an unlisted 1.2.3 entry resolves its date from the
commit timestamp. -/
theorem nuget_sentinel_commit_timestamp_witness :
    (analyzeNugetPackage "1.2.3"
        (some
          [[{ catalogEntry :=
                { version := some "1.0.0",
                  published := some "2018-01-01T00:00:00+00:00" } }],
           [{ catalogEntry :=
                { version := some "1.2.3",
                  published := some "1900-01-01T00:00:00Z" },
              commitTimeStamp :=
                some "2021-07-07T08:09:10.5342453+00:00" }]])).latest_date
      = some ⟨2021, 7, 7, 8, 9, 10⟩ := by
  have h := (nuget_sentinel_commit_timestamp
    [[{ catalogEntry :=
          { version := some "1.0.0",
            published := some "2018-01-01T00:00:00+00:00" } }],
     [{ catalogEntry :=
          { version := some "1.2.3",
            published := some "1900-01-01T00:00:00Z" },
        commitTimeStamp := some "2021-07-07T08:09:10.5342453+00:00" }]]
    "1.2.3" "1900-01-01T00:00:00Z" "2021-07-07T08:09:10.5342453+00:00"
    { catalogEntry :=
        { version := some "1.2.3",
          published := some "1900-01-01T00:00:00Z" },
      commitTimeStamp := some "2021-07-07T08:09:10.5342453+00:00" }
    (by decide) rfl (by decide) rfl (by decide)).1
  rw [h]
  decide

/-- C7: in the embedded model — where every network call already returns
its failure value instead of raising — `analyze_component` is a total
function; when the whole resolution chain fails (registry lookup and
every fallback URL) it returns the untouched initial result
(`UNKNOWN`/`NONE`/`Cannot determine`), and when package data resolves
but carries no release date while there is no framework match, no
deprecation and no archival, the result is likewise
`UNKNOWN`/`NONE`/`Cannot determine`. -/
theorem analyze_component_unknown_on_failure (clients : Clients)
    (today : DateTime) (productEol : Option String) (comp : Component) :
    ((resolvePackageData clients comp).success = false →
      analyzeComponent clients today productEol comp = baseResult comp)
    ∧ ((resolvePackageData clients comp).success = true →
      (resolvePackageData clients comp).latest_date = Option.none →
      (resolvePackageData clients comp).deprecated = false →
      frameworkLifecycle today comp.name comp.version
        ((componentPurlData comp).map (·.ecosystem)) = Option.none →
      repoArchived
        (resolveRepoData clients comp (resolvePackageData clients comp))
        = false →
      (analyzeComponent clients today productEol comp).support_level
          = SupportLevel.unknown
      ∧ (analyzeComponent clients today productEol comp).confidence
          = ConfidenceLevel.none
      ∧ (analyzeComponent clients today productEol comp).end_of_life
          = "Cannot determine") := by
  constructor
  · intro h
    simp [analyzeComponent, h]
  · intro hs hld hdep hfw harch
    refine ⟨?_, ?_, ?_⟩ <;>
      simp [analyzeComponent, hs, hld, calculateSupportLevel, hfw, hdep, harch]

/-- A client bundle on which every evidence source fails. -/
def noSourceClients : Clients :=
  { nugetClient := fun _ _ => { success := false },
    npmClient := fun _ _ => { success := false },
    pypiClient := fun _ _ => { success := false },
    mavenClient := fun _ _ _ => { success := false },
    cocoapodsClient := fun _ _ => { success := false },
    githubRepoInfo := fun _ => Option.none,
    analyzeFromUrl := fun _ _ _ => { success := false } }

/-- Witness for C7: with every source failing, a component with a PURL
and a VCS reference still resolves to the untouched
`UNKNOWN`/`NONE`/`Cannot determine` result. -/
theorem analyze_component_unknown_on_failure_witness :
    analyzeComponent noSourceClients ⟨2025, 1, 1, 0, 0, 0⟩ Option.none
        { name := "foo", version := "1.0", purl := some "pkg:npm/foo@1.0",
          externalReferences :=
            [{ refType := some "vcs",
               url := some "https://github.com/a/b" }] }
      = { name := "foo", version := "1.0",
          support_level := SupportLevel.unknown,
          end_of_life := "Cannot determine",
          confidence := ConfidenceLevel.none } :=
  (analyze_component_unknown_on_failure noSourceClients ⟨2025, 1, 1, 0, 0, 0⟩
    Option.none
    { name := "foo", version := "1.0", purl := some "pkg:npm/foo@1.0",
      externalReferences :=
        [{ refType := some "vcs",
           url := some "https://github.com/a/b" }] }).1 (by decide)

/-! ### Lemmas about the character-level splitting helpers -/

theorem splitOnChar_ne_nil (c : Char) (l : List Char) :
    splitOnChar c l ≠ [] := by
  cases l with
  | nil => simp [splitOnChar]
  | cons a as =>
    simp only [splitOnChar]
    cases h : splitOnChar c as with
    | nil => simp
    | cons x xs =>
      by_cases hac : a = c <;> simp [hac]

theorem splitOnChar_of_not_mem {c : Char} {l : List Char} (h : c ∉ l) :
    splitOnChar c l = [l] := by
  induction l with
  | nil => rfl
  | cons a as ih =>
    have hac : a ≠ c := fun he => h (he ▸ List.mem_cons_self a as)
    have has : c ∉ as := fun hm => h (List.mem_cons_of_mem a hm)
    simp [splitOnChar, ih has, hac]

theorem splitOnChar_append {c : Char} {l₁ : List Char} (l₂ : List Char)
    (h : c ∉ l₁) : splitOnChar c (l₁ ++ c :: l₂) = l₁ :: splitOnChar c l₂ := by
  induction l₁ with
  | nil =>
    simp only [List.nil_append, splitOnChar]
    cases hs : splitOnChar c l₂ with
    | nil => exact absurd hs (splitOnChar_ne_nil c l₂)
    | cons x xs => simp
  | cons a as ih =>
    have hac : a ≠ c := fun he => h (he ▸ List.mem_cons_self a as)
    have has : c ∉ as := fun hm => h (List.mem_cons_of_mem a hm)
    simp only [List.cons_append, splitOnChar, List.append_eq]
    rw [ih has]
    simp [hac]

theorem rsplitLast_of_not_mem {c : Char} {l : List Char} (h : c ∉ l) :
    rsplitLast c l = Option.none := by
  induction l with
  | nil => rfl
  | cons a as ih =>
    have hac : a ≠ c := fun he => h (he ▸ List.mem_cons_self a as)
    have has : c ∉ as := fun hm => h (List.mem_cons_of_mem a hm)
    simp [rsplitLast, ih has, hac]

theorem rsplitLast_append {c : Char} (l₁ : List Char) {l₂ : List Char}
    (h : c ∉ l₂) : rsplitLast c (l₁ ++ c :: l₂) = some (l₁, l₂) := by
  induction l₁ with
  | nil => simp [rsplitLast, rsplitLast_of_not_mem h]
  | cons a as ih => simp [rsplitLast, ih]

theorem stripQualifier_of_not_mem {l : List Char} (h : '?' ∉ l) :
    stripQualifier l = l := by
  simp [stripQualifier, List.elem_eq_mem, h]

theorem stripQualifier_append {l : List Char} (q : List Char)
    (h : '?' ∉ l) : stripQualifier (l ++ '?' :: q) = l := by
  have hmem : '?' ∈ l ++ '?' :: q := List.mem_append_right l (List.mem_cons_self _ _)
  simp [stripQualifier, List.elem_eq_mem, hmem, splitOnChar_append q h]

theorem isPrefixOf_append (l₁ l₂ : List Char) :
    l₁.isPrefixOf (l₁ ++ l₂) = true := by
  induction l₁ with
  | nil =>
    simp only [List.nil_append]
    cases l₂ <;> rfl
  | cons a as ih => simp [List.isPrefixOf, ih]

theorem strData_append (a b : String) : (a ++ b).data = a.data ++ b.data := rfl

theorem parsePurl_pkg {s : String} {rest : List Char}
    (hs : s.data = 'p' :: 'k' :: 'g' :: ':' :: rest) :
    parsePurl s = some (parsePurlBody rest) := by
  have hpre : strStartsWith s "pkg:" = true := by
    rw [strStartsWith, hs]
    exact isPrefixOf_append "pkg:".data rest
  have hdrop : s.data.drop 4 = rest := by
    rw [hs]
    rfl
  simp [parsePurl, hpre, hdrop]

theorem purl_round_trip_case1 (eco name : String)
    (hecS : '/' ∉ eco.data) (hnmS : '/' ∉ name.data)
    (hnmA : '@' ∉ name.data) (hnmQ : '?' ∉ name.data) :
    parsePurl (mkPurl eco Option.none name Option.none Option.none)
      = some { ecosystem := eco, namespc := Option.none, name := name,
               version := Option.none } := by
  have hdata : (mkPurl eco Option.none name Option.none Option.none).data
      = 'p' :: 'k' :: 'g' :: ':' :: (eco.data ++ '/' :: name.data) := by
    simp [mkPurl, strData_append]
  rw [parsePurl_pkg hdata]
  have hparts : splitOnChar '/' (eco.data ++ '/' :: name.data)
      = [eco.data, name.data] := by
    rw [splitOnChar_append _ hecS, splitOnChar_of_not_mem hnmS]
  simp only [parsePurlBody, hparts]
  simp [rsplitLast_of_not_mem hnmA, stripQualifier_of_not_mem hnmQ]

theorem not_mem_append_cons {a b : Char} {l1 l2 : List Char}
    (h1 : a ∉ l1) (hab : a ≠ b) (h2 : a ∉ l2) : a ∉ l1 ++ b :: l2 := by
  intro hm
  rcases List.mem_append.mp hm with h | h
  · exact h1 h
  · rcases List.mem_cons.mp h with h | h
    · exact hab h
    · exact h2 h

theorem purl_round_trip_case2 (eco name q : String)
    (hecS : '/' ∉ eco.data) (hnmS : '/' ∉ name.data)
    (hnmA : '@' ∉ name.data) (hnmQ : '?' ∉ name.data)
    (hqS : '/' ∉ q.data) (hqA : '@' ∉ q.data) :
    parsePurl (mkPurl eco Option.none name Option.none (some q))
      = some { ecosystem := eco, namespc := Option.none, name := name,
               version := Option.none } := by
  have hdata : (mkPurl eco Option.none name Option.none (some q)).data
      = 'p' :: 'k' :: 'g' :: ':' :: (eco.data ++ '/' :: (name.data ++ '?' :: q.data)) := by
    simp [mkPurl, strData_append]
  rw [parsePurl_pkg hdata]
  have hnvS : '/' ∉ name.data ++ '?' :: q.data :=
    not_mem_append_cons hnmS (by decide) hqS
  have hnvA : '@' ∉ name.data ++ '?' :: q.data :=
    not_mem_append_cons hnmA (by decide) hqA
  have hparts : splitOnChar '/' (eco.data ++ '/' :: (name.data ++ '?' :: q.data))
      = [eco.data, name.data ++ '?' :: q.data] := by
    rw [splitOnChar_append _ hecS, splitOnChar_of_not_mem hnvS]
  simp only [parsePurlBody, hparts]
  simp [rsplitLast_of_not_mem hnvA, stripQualifier_append _ hnmQ]

theorem purl_round_trip_case3 (eco name v : String)
    (hecS : '/' ∉ eco.data) (hnmS : '/' ∉ name.data)
    (_hnmA : '@' ∉ name.data) (hnmQ : '?' ∉ name.data)
    (hvS : '/' ∉ v.data) (hvQ : '?' ∉ v.data) (hvA2 : '@' ∉ v.data) :
    parsePurl (mkPurl eco Option.none name (some v) Option.none)
      = some { ecosystem := eco, namespc := Option.none, name := name,
               version := some v } := by
  have hdata : (mkPurl eco Option.none name (some v) Option.none).data
      = 'p' :: 'k' :: 'g' :: ':' :: (eco.data ++ '/' :: (name.data ++ '@' :: v.data)) := by
    simp [mkPurl, strData_append]
  rw [parsePurl_pkg hdata]
  have hnvS : '/' ∉ name.data ++ '@' :: v.data :=
    not_mem_append_cons hnmS (by decide) hvS
  have hparts : splitOnChar '/' (eco.data ++ '/' :: (name.data ++ '@' :: v.data))
      = [eco.data, name.data ++ '@' :: v.data] := by
    rw [splitOnChar_append _ hecS, splitOnChar_of_not_mem hnvS]
  simp only [parsePurlBody, hparts]
  have hvc : v.data.contains '?' = false := by
    simp [List.elem_eq_mem, hvQ]
  have hvQ' : ('@' : Char) ∉ v.data := hvA2
  rw [rsplitLast_append name.data hvQ']
  simp only [parsePurlBody]
  simp [stripQualifier_of_not_mem hnmQ, hvc]
  rw [if_neg fun hc => hvQ hc.2]

theorem purl_round_trip_case4 (eco name v q : String)
    (hecS : '/' ∉ eco.data) (hnmS : '/' ∉ name.data)
    (hnmQ : '?' ∉ name.data)
    (hvS : '/' ∉ v.data) (hvQ : '?' ∉ v.data) (hvA : '@' ∉ v.data)
    (hqS : '/' ∉ q.data) (hqA : '@' ∉ q.data) :
    parsePurl (mkPurl eco Option.none name (some v) (some q))
      = some { ecosystem := eco, namespc := Option.none, name := name,
               version := some v } := by
  have hdata : (mkPurl eco Option.none name (some v) (some q)).data
      = 'p' :: 'k' :: 'g' :: ':'
          :: (eco.data ++ '/' :: (name.data ++ '@' :: (v.data ++ '?' :: q.data))) := by
    simp [mkPurl, strData_append]
  rw [parsePurl_pkg hdata]
  have hvqS : '/' ∉ v.data ++ '?' :: q.data :=
    not_mem_append_cons hvS (by decide) hqS
  have hvqA : '@' ∉ v.data ++ '?' :: q.data :=
    not_mem_append_cons hvA (by decide) hqA
  have hnvS : '/' ∉ name.data ++ '@' :: (v.data ++ '?' :: q.data) :=
    not_mem_append_cons hnmS (by decide) hvqS
  have hparts : splitOnChar '/'
        (eco.data ++ '/' :: (name.data ++ '@' :: (v.data ++ '?' :: q.data)))
      = [eco.data, name.data ++ '@' :: (v.data ++ '?' :: q.data)] := by
    rw [splitOnChar_append _ hecS, splitOnChar_of_not_mem hnvS]
  simp only [parsePurlBody, hparts]
  rw [rsplitLast_append name.data hvqA]
  have hne : v.data ++ '?' :: q.data ≠ [] := by simp
  have hmem : ('?' : Char) ∈ v.data ++ '?' :: q.data :=
    List.mem_append_right _ (List.mem_cons_self _ _)
  simp [stripQualifier_of_not_mem hnmQ, hne, hmem, List.elem_eq_mem,
    stripQualifier_append _ hvQ]

theorem purl_round_trip_case5 (eco n name : String)
    (hecS : '/' ∉ eco.data) (hnS : '/' ∉ n.data) (hnmS : '/' ∉ name.data)
    (hnmA : '@' ∉ name.data) (hnmQ : '?' ∉ name.data) :
    parsePurl (mkPurl eco (some n) name Option.none Option.none)
      = some { ecosystem := eco, namespc := some n, name := name,
               version := Option.none } := by
  have hdata : (mkPurl eco (some n) name Option.none Option.none).data
      = 'p' :: 'k' :: 'g' :: ':'
          :: (eco.data ++ '/' :: (n.data ++ '/' :: name.data)) := by
    simp [mkPurl, strData_append]
  rw [parsePurl_pkg hdata]
  have hparts : splitOnChar '/' (eco.data ++ '/' :: (n.data ++ '/' :: name.data))
      = [eco.data, n.data, name.data] := by
    rw [splitOnChar_append _ hecS, splitOnChar_append _ hnS,
      splitOnChar_of_not_mem hnmS]
  simp only [parsePurlBody, hparts]
  simp [rsplitLast_of_not_mem hnmA, stripQualifier_of_not_mem hnmQ]

theorem purl_round_trip_case6 (eco n name q : String)
    (hecS : '/' ∉ eco.data) (hnS : '/' ∉ n.data) (hnmS : '/' ∉ name.data)
    (hnmA : '@' ∉ name.data) (hnmQ : '?' ∉ name.data)
    (hqS : '/' ∉ q.data) (hqA : '@' ∉ q.data) :
    parsePurl (mkPurl eco (some n) name Option.none (some q))
      = some { ecosystem := eco, namespc := some n, name := name,
               version := Option.none } := by
  have hdata : (mkPurl eco (some n) name Option.none (some q)).data
      = 'p' :: 'k' :: 'g' :: ':'
          :: (eco.data ++ '/' :: (n.data ++ '/' :: (name.data ++ '?' :: q.data))) := by
    simp [mkPurl, strData_append]
  rw [parsePurl_pkg hdata]
  have hnvS : '/' ∉ name.data ++ '?' :: q.data :=
    not_mem_append_cons hnmS (by decide) hqS
  have hnvA : '@' ∉ name.data ++ '?' :: q.data :=
    not_mem_append_cons hnmA (by decide) hqA
  have hparts : splitOnChar '/'
        (eco.data ++ '/' :: (n.data ++ '/' :: (name.data ++ '?' :: q.data)))
      = [eco.data, n.data, name.data ++ '?' :: q.data] := by
    rw [splitOnChar_append _ hecS, splitOnChar_append _ hnS,
      splitOnChar_of_not_mem hnvS]
  simp only [parsePurlBody, hparts]
  simp [rsplitLast_of_not_mem hnvA, stripQualifier_append _ hnmQ]

theorem purl_round_trip_case7 (eco n name v : String)
    (hecS : '/' ∉ eco.data) (hnS : '/' ∉ n.data) (hnmS : '/' ∉ name.data)
    (hnmQ : '?' ∉ name.data)
    (hvS : '/' ∉ v.data) (hvQ : '?' ∉ v.data) (hvA : '@' ∉ v.data) :
    parsePurl (mkPurl eco (some n) name (some v) Option.none)
      = some { ecosystem := eco, namespc := some n, name := name,
               version := some v } := by
  have hdata : (mkPurl eco (some n) name (some v) Option.none).data
      = 'p' :: 'k' :: 'g' :: ':'
          :: (eco.data ++ '/' :: (n.data ++ '/' :: (name.data ++ '@' :: v.data))) := by
    simp [mkPurl, strData_append]
  rw [parsePurl_pkg hdata]
  have hnvS : '/' ∉ name.data ++ '@' :: v.data :=
    not_mem_append_cons hnmS (by decide) hvS
  have hparts : splitOnChar '/'
        (eco.data ++ '/' :: (n.data ++ '/' :: (name.data ++ '@' :: v.data)))
      = [eco.data, n.data, name.data ++ '@' :: v.data] := by
    rw [splitOnChar_append _ hecS, splitOnChar_append _ hnS,
      splitOnChar_of_not_mem hnvS]
  simp only [parsePurlBody, hparts]
  rw [rsplitLast_append name.data hvA]
  have hvc : v.data.contains '?' = false := by
    simp [List.elem_eq_mem, hvQ]
  simp only [parsePurlBody]
  simp [stripQualifier_of_not_mem hnmQ, hvc]
  rw [if_neg fun hc => hvQ hc.2]

theorem purl_round_trip_case8 (eco n name v q : String)
    (hecS : '/' ∉ eco.data) (hnS : '/' ∉ n.data) (hnmS : '/' ∉ name.data)
    (hnmQ : '?' ∉ name.data)
    (hvS : '/' ∉ v.data) (hvQ : '?' ∉ v.data) (hvA : '@' ∉ v.data)
    (hqS : '/' ∉ q.data) (hqA : '@' ∉ q.data) :
    parsePurl (mkPurl eco (some n) name (some v) (some q))
      = some { ecosystem := eco, namespc := some n, name := name,
               version := some v } := by
  have hdata : (mkPurl eco (some n) name (some v) (some q)).data
      = 'p' :: 'k' :: 'g' :: ':'
          :: (eco.data ++ '/' :: (n.data ++ '/'
              :: (name.data ++ '@' :: (v.data ++ '?' :: q.data)))) := by
    simp [mkPurl, strData_append]
  rw [parsePurl_pkg hdata]
  have hvqS : '/' ∉ v.data ++ '?' :: q.data :=
    not_mem_append_cons hvS (by decide) hqS
  have hvqA : '@' ∉ v.data ++ '?' :: q.data :=
    not_mem_append_cons hvA (by decide) hqA
  have hnvS : '/' ∉ name.data ++ '@' :: (v.data ++ '?' :: q.data) :=
    not_mem_append_cons hnmS (by decide) hvqS
  have hparts : splitOnChar '/'
        (eco.data ++ '/' :: (n.data ++ '/'
            :: (name.data ++ '@' :: (v.data ++ '?' :: q.data))))
      = [eco.data, n.data, name.data ++ '@' :: (v.data ++ '?' :: q.data)] := by
    rw [splitOnChar_append _ hecS, splitOnChar_append _ hnS,
      splitOnChar_of_not_mem hnvS]
  simp only [parsePurlBody, hparts]
  rw [rsplitLast_append name.data hvqA]
  have hne : v.data ++ '?' :: q.data ≠ [] := by simp
  have hmem : ('?' : Char) ∈ v.data ++ '?' :: q.data :=
    List.mem_append_right _ (List.mem_cons_self _ _)
  simp [stripQualifier_of_not_mem hnmQ, hne, hmem, List.elem_eq_mem,
    stripQualifier_append _ hvQ]

/-- C9: round trip — for every well-formed `pkg:` identifier (shape per
the spec's grammar, made precise by `wellFormedPurlParts`), the
ecosystem, namespace, name and version produced by `_parse_purl`
reconstruct an identifier equal to the input once qualifiers are
disregarded. -/
theorem purl_round_trip (eco name : String) (ns ver qual : Option String)
    (h : wellFormedPurlParts eco ns name ver qual = true) :
    parsePurl (mkPurl eco ns name ver qual)
      = some { ecosystem := eco, namespc := ns, name := name, version := ver }
    ∧ unparsePurl
        { ecosystem := eco, namespc := ns, name := name, version := ver }
      = mkPurl eco ns name ver Option.none := by
  refine ⟨?_, rfl⟩
  cases ns <;> cases ver <;> cases qual <;>
    simp only [wellFormedPurlParts, Bool.and_eq_true, Bool.not_eq_true',
      List.elem_eq_mem, decide_eq_false_iff_not] at h
  case none.none.none =>
    obtain ⟨⟨⟨⟨⟨⟨⟨⟨-, hecS⟩, -⟩, -⟩, hnmS⟩, hnmA⟩, hnmQ⟩, -⟩, -⟩ := h
    exact purl_round_trip_case1 eco name hecS hnmS hnmA hnmQ
  case none.none.some q =>
    obtain ⟨⟨⟨⟨⟨⟨⟨⟨-, hecS⟩, -⟩, -⟩, hnmS⟩, hnmA⟩, hnmQ⟩, -⟩, hqS, hqA⟩ := h
    exact purl_round_trip_case2 eco name q hecS hnmS hnmA hnmQ hqS hqA
  case none.some.none v =>
    obtain ⟨⟨⟨⟨⟨⟨⟨⟨-, hecS⟩, -⟩, -⟩, hnmS⟩, hnmA⟩, hnmQ⟩, ⟨hvS, hvA⟩, hvQ⟩, -⟩ := h
    exact purl_round_trip_case3 eco name v hecS hnmS hnmA hnmQ hvS hvQ hvA
  case none.some.some v q =>
    obtain ⟨⟨⟨⟨⟨⟨⟨⟨-, hecS⟩, -⟩, -⟩, hnmS⟩, hnmA⟩, hnmQ⟩, ⟨hvS, hvA⟩, hvQ⟩, hqS, hqA⟩ := h
    exact purl_round_trip_case4 eco name v q hecS hnmS hnmQ hvS hvQ hvA hqS hqA
  case some.none.none n =>
    obtain ⟨⟨⟨⟨⟨⟨⟨⟨-, hecS⟩, -, hnS⟩, -⟩, hnmS⟩, hnmA⟩, hnmQ⟩, -⟩, -⟩ := h
    exact purl_round_trip_case5 eco n name hecS hnS hnmS hnmA hnmQ
  case some.none.some n q =>
    obtain ⟨⟨⟨⟨⟨⟨⟨⟨-, hecS⟩, -, hnS⟩, -⟩, hnmS⟩, hnmA⟩, hnmQ⟩, -⟩, hqS, hqA⟩ := h
    exact purl_round_trip_case6 eco n name q hecS hnS hnmS hnmA hnmQ hqS hqA
  case some.some.none n v =>
    obtain ⟨⟨⟨⟨⟨⟨⟨⟨-, hecS⟩, -, hnS⟩, -⟩, hnmS⟩, hnmA⟩, hnmQ⟩, ⟨hvS, hvA⟩, hvQ⟩, -⟩ := h
    exact purl_round_trip_case7 eco n name v hecS hnS hnmS hnmQ hvS hvQ hvA
  case some.some.some n v q =>
    obtain ⟨⟨⟨⟨⟨⟨⟨⟨-, hecS⟩, -, hnS⟩, -⟩, hnmS⟩, hnmA⟩, hnmQ⟩, ⟨hvS, hvA⟩, hvQ⟩, hqS, hqA⟩ := h
    exact purl_round_trip_case8 eco n name v q hecS hnS hnmS hnmQ hvS hvQ hvA hqS hqA

/-- Witness for C9 on a Maven-style identifier with namespace, version
and qualifier. -/
theorem purl_round_trip_witness :
    parsePurl "pkg:maven/org.apache/commons-lang3@3.12.0?type=jar"
      = some { ecosystem := "maven", namespc := some "org.apache",
               name := "commons-lang3", version := some "3.12.0" } := by
  have hm : mkPurl "maven" (some "org.apache") "commons-lang3"
      (some "3.12.0") (some "type=jar")
      = "pkg:maven/org.apache/commons-lang3@3.12.0?type=jar" := by decide
  have h := (purl_round_trip "maven" "commons-lang3" (some "org.apache")
    (some "3.12.0") (some "type=jar") (by decide)).1
  rw [hm] at h
  exact h

end Sbom
